import Mathlib

/-!
Verification of the request-building, bulk-parameter-encoding and
response-normalization core of a Glassnode API client
(`glassnode_client.py`).  The Python source is shallowly embedded:

* JSON values are the inductive `Json`; Python dicts are ordered
  association lists with unique keys (as produced by the `json` module
  and by Python dict literals), with `dictGet` / `dictSet` / `dictUpdate`
  mirroring `d[k]`, `d[k] = v` and `d.update(e)`.
* The error kinds of the spec's taxonomy are the inductive `Err`;
  Python raises `ValueError` / `GlassnodeAPIError` / `KeyError` /
  `TypeError` / `AttributeError`, distinguished here by constructor.
* The standard-library timestamp parsers (`datetime.fromisoformat`,
  `datetime.strptime`) are external collaborators and are abstracted as
  oracle parameters `iso date : String -> Option Int`; a `datetime`
  object is abstracted by the integer `int(obj.timestamp())` it converts
  to.  Machine floats appear in the source only as the day-span division
  `(end_ts - start_ts) / 86400 > max_days`, modelled exactly by the
  integer comparison `end_ts - start_ts > max_days * 86400` (equivalent
  for every span below 2^53 seconds, far beyond any epoch timestamp).
* The HTTP transport (`requests.Session.get` + `raise_for_status` +
  `.json()`) is a collaborator parameter; its invocations are recorded
  in an explicit call trace so that "no network call is issued" is the
  statement `trace = []`.
-/

/-- JSON values as decoded by Python's `json` module.  Numbers are
modelled as integers (all numeric payloads relevant to the claims are
integral); objects are ordered key/value lists. -/
inductive Json where
  | null
  | bool (b : Bool)
  | num (n : Int)
  | str (s : String)
  | arr (elems : List Json)
  | obj (entries : List (String × Json))

/-- Error kinds raised by the client, one constructor per kind of the
spec's taxonomy plus the builtin Python exceptions the bulk normalizer
can propagate on malformed rows. -/
inductive Err where
  | invalidTimestamp
  | timerangeTooLarge
  | invalidBulkResponse
  | apiRequestFailed
  | keyError (k : String)
  | typeError
  | attributeError
  deriving DecidableEq

/-- A flattened bulk row: a Python dict from field name to JSON value. -/
abbrev Row := List (String × Json)

/-- `d[k]` on a Python dict: value of the first (and, for genuine
Python dicts, only) entry with key `k`. -/
def dictGet {α : Type} : List (String × α) → String → Option α
  | [], _ => Option.none
  | (k', v) :: rest, k => if k' = k then some v else dictGet rest k

/-- `d[k] = v` on a Python dict: replace the value of the existing
entry with key `k` keeping its position, else append a new entry. -/
def dictSet {α : Type} : List (String × α) → String → α → List (String × α)
  | [], k, v => [(k, v)]
  | (k', w) :: rest, k, v =>
      if k' = k then (k, v) :: rest else (k', w) :: dictSet rest k v

/-- `d.update(e)`: assign every entry of `e` into `d`, in `e`'s order. -/
def dictUpdate {α : Type} (d e : List (String × α)) : List (String × α) :=
  e.foldl (fun acc kv => dictSet acc kv.1 kv.2) d

/-- A Python query-parameter value: `None`, a scalar, or a list
(lists are what bulk endpoints use for repeated keys). -/
inductive PVal where
  | none
  | str (s : String)
  | int (n : Int)
  | list (elems : List PVal)

/-- What the encoding loop of `_make_request` emits for one `(key, value)`
item: nothing for `None`, one pair per element for a list, and a single
pair otherwise. -/
def expandOne (k : String) : PVal → List (String × PVal)
  | .none => []
  | .list xs => xs.map (fun x => (k, x))
  | v => [(k, v)]

/-- The `final_params` loop of `_make_request` (lines 106-115): iterate
the merged params dict in insertion order, appending `expandOne` of each
item to the accumulator. -/
def encodeParams (params : List (String × PVal)) : List (String × PVal) :=
  params.foldl (fun acc kv => acc ++ expandOne kv.1 kv.2) []

/-- Specification-side restatement of the loop: the concatenation of the
per-item expansions, in insertion order. -/
def expandAll : List (String × PVal) → List (String × PVal)
  | [] => []
  | (k, v) :: rest => expandOne k v ++ expandAll rest

lemma encodeParams_go (d : List (String × PVal)) :
    ∀ acc : List (String × PVal),
      d.foldl (fun acc kv => acc ++ expandOne kv.1 kv.2) acc = acc ++ expandAll d := by
  induction d with
  | nil => intro acc; simp [expandAll]
  | cons kv rest ih =>
      intro acc
      cases kv with
      | mk k v => simp [List.foldl_cons, expandAll, ih, List.append_assoc]

lemma encodeParams_eq_expandAll (d : List (String × PVal)) :
    encodeParams d = expandAll d := by
  simpa using encodeParams_go d []

lemma dictGet_dictSet_self {α : Type} (d : List (String × α)) (k : String) (v : α) :
    dictGet (dictSet d k v) k = some v := by
  induction d with
  | nil => simp [dictSet, dictGet]
  | cons kv rest ih =>
      cases kv with
      | mk k' w =>
          by_cases h : k' = k
          · simp [dictSet, dictGet, h]
          · simp [dictSet, dictGet, h, ih]

lemma dictGet_dictSet_ne {α : Type} (d : List (String × α)) {k' k : String} (v : α)
    (h : k' ≠ k) : dictGet (dictSet d k' v) k = dictGet d k := by
  induction d with
  | nil => simp [dictSet, dictGet, h]
  | cons kv rest ih =>
      cases kv with
      | mk k1 w =>
          by_cases h1 : k1 = k'
          · subst h1; simp [dictSet, dictGet, h]
          · simp [dictSet, dictGet, h1, ih]

lemma dictGet_dictUpdate_not_key {α : Type} (e : List (String × α)) :
    ∀ d : List (String × α), ∀ k : String, k ∉ e.map Prod.fst →
      dictGet (dictUpdate d e) k = dictGet d k := by
  induction e with
  | nil => intro d k _; simp [dictUpdate]
  | cons kv rest ih =>
      intro d k hk
      cases kv with
      | mk k1 v1 =>
          simp only [List.map_cons, List.mem_cons] at hk
          push_neg at hk
          have h1 : k1 ≠ k := fun h => hk.1 h.symm
          have : dictUpdate d ((k1, v1) :: rest) = dictUpdate (dictSet d k1 v1) rest := rfl
          rw [this, ih (dictSet d k1 v1) k hk.2, dictGet_dictSet_ne d v1 h1]

lemma dictGet_dictUpdate_of_get {α : Type} (e : List (String × α)) :
    ∀ d : List (String × α), (e.map Prod.fst).Nodup →
      ∀ k : String, ∀ v : α, dictGet e k = some v →
        dictGet (dictUpdate d e) k = some v := by
  induction e with
  | nil => intro d _ k v h; simp [dictGet] at h
  | cons kv rest ih =>
      intro d hnd k v h
      cases kv with
      | mk k1 v1 =>
          simp only [List.map_cons, List.nodup_cons] at hnd
          have hst : dictUpdate d ((k1, v1) :: rest) = dictUpdate (dictSet d k1 v1) rest := rfl
          by_cases hk : k1 = k
          · subst hk
            have h' : v1 = v := by simpa [dictGet] using h
            rw [hst, dictGet_dictUpdate_not_key rest (dictSet d k1 v1) k1 hnd.1,
              dictGet_dictSet_self]
            exact congrArg some h'
          · simp only [dictGet, if_neg hk] at h
            rw [hst]
            exact ih (dictSet d k1 v1) hnd.2 k v h

lemma mem_dictSet_of_ne {α : Type} (d : List (String × α)) {k k0 : String} (v : α) (w : α)
    (h : (k0, w) ∈ d) (hk : k ≠ k0) : (k0, w) ∈ dictSet d k v := by
  induction d with
  | nil => simp at h
  | cons kv rest ih =>
      cases kv with
      | mk k1 v1 =>
          by_cases h1 : k1 = k
          · subst h1
            rcases List.mem_cons.mp h with h' | h'
            · exact absurd (congrArg Prod.fst h').symm hk
            · simp [dictSet, List.mem_cons, h']
          · rcases List.mem_cons.mp h with h' | h'
            · simp [dictSet, h1, List.mem_cons, h']
            · simp only [dictSet, if_neg h1]
              exact List.mem_cons.mpr (Or.inr (ih h'))

lemma mem_dictUpdate_of_key_not_mem {α : Type} (e : List (String × α)) :
    ∀ d : List (String × α), ∀ k0 : String, ∀ w : α,
      (k0, w) ∈ d → k0 ∉ e.map Prod.fst → (k0, w) ∈ dictUpdate d e := by
  induction e with
  | nil => intro d k0 w h _; simpa [dictUpdate] using h
  | cons kv rest ih =>
      intro d k0 w h hk
      cases kv with
      | mk k1 v1 =>
          simp only [List.map_cons, List.mem_cons] at hk
          push_neg at hk
          have h1 : k1 ≠ k0 := fun hh => hk.1 hh.symm
          exact ih (dictSet d k1 v1) k0 w (mem_dictSet_of_ne d v1 w h h1) hk.2

lemma dictGet_eq_none_iff {α : Type} (e : List (String × α)) (k : String) :
    dictGet e k = Option.none ↔ k ∉ e.map Prod.fst := by
  induction e with
  | nil => simp [dictGet]
  | cons kv rest ih =>
      cases kv with
      | mk k1 v1 =>
          by_cases h : k1 = k
          · subst h; simp [dictGet]
          · have hks : k ≠ k1 := fun hh => h hh.symm
            simp [dictGet, h, ih, hks]

lemma mem_encodeParams_of_mem_scalar (d : List (String × PVal)) (k : String) (v : PVal)
    (h : (k, v) ∈ d) (hv : expandOne k v = [(k, v)]) : (k, v) ∈ encodeParams d := by
  rw [encodeParams_eq_expandAll]
  induction d with
  | nil => simp at h
  | cons kv rest ih =>
      cases kv with
      | mk k1 v1 =>
          rcases List.mem_cons.mp h with h' | h'
          · cases h'
            simp [expandAll, hv]
          · simp only [expandAll, List.mem_append]
            exact Or.inr (ih h')

/-- Inputs accepted by `_format_timestamp`: a string, a `datetime`
object (abstracted by the integer `int(obj.timestamp())` it converts
to), an `int`, or a value of any other type. -/
inductive TSInput where
  | str (s : String)
  | dt (epoch : Int)
  | int (n : Int)
  | other
  deriving DecidableEq

/-- `timestamp.replace(Z, +00:00)` on the character list: every
occurrence of the character is replaced by the offset text. -/
def replaceZList : List Char → List Char
  | [] => []
  | c :: rest => (if c = 'Z' then "+00:00".data else [c]) ++ replaceZList rest

/-- `timestamp.replace(Z, +00:00)` (line 298). -/
def replaceZ (s : String) : String := String.mk (replaceZList s.data)

/-- `_format_timestamp` (lines 294-309).  The standard-library parsers
are oracle parameters: `iso s` is `datetime.fromisoformat(s)` as an
epoch-second integer when the parse succeeds, and `date s` is
`datetime.strptime(s, %Y-%m-%d)` likewise; both raise `ValueError`
(here: `Option.none`) on failure.  All `ValueError`s of this function
are the spec's `InvalidTimestamp` kind. -/
def format_timestamp (iso date : String → Option Int) : TSInput → Except Err Int
  | .str s =>
      match iso (replaceZ s) with
      | some n => Except.ok n
      | Option.none =>
          match date s with
          | some n => Except.ok n
          | Option.none => Except.error Err.invalidTimestamp
  | .dt n => Except.ok n
  | .int n => Except.ok n
  | .other => Except.error Err.invalidTimestamp

/-- Python truthiness of a timestamp argument: `0` and the empty string
are falsy, every other accepted value is truthy (a `datetime` object is
always truthy). -/
def pyTruthyTS : TSInput → Bool
  | .str s => s != ""
  | .dt _ => true
  | .int n => n != 0
  | .other => true

/-- Truthiness of an `Optional` timestamp argument: `None` is falsy. -/
def pyTruthyOpt : Option TSInput → Bool
  | Option.none => false
  | some t => pyTruthyTS t

/-- The `constraints` dict of `_validate_bulk_timerange` (lines
254-261): maximum allowed span in days per interval. -/
def bulkConstraints : List (String × Int) :=
  [("10m", 10), ("1h", 10), ("24h", 31), ("1d", 31), ("1w", 93), ("1month", 93)]

/-- `_validate_bulk_timerange` (lines 240-268).  `if not since or not
until: return` is Python truthiness on the two optional bounds.  The
float comparison `(end_ts - start_ts) / 86400 > max_days` is modelled
by the exact integer comparison (see the header note). -/
def validate_bulk_timerange (iso date : String → Option Int)
    (since untl : Option TSInput) (interval : String) : Except Err Unit :=
  match since, untl with
  | some s, some u =>
      if pyTruthyTS s && pyTruthyTS u then
        match format_timestamp iso date s with
        | Except.error e => Except.error e
        | Except.ok start_ts =>
            match format_timestamp iso date u with
            | Except.error e => Except.error e
            | Except.ok end_ts =>
                match dictGet bulkConstraints interval with
                | some max_days =>
                    if end_ts - start_ts > max_days * 86400 then
                      Except.error Err.timerangeTooLarge
                    else Except.ok ()
                | Option.none => Except.ok ()
      else Except.ok ()
  | _, _ => Except.ok ()

/-- Python iteration `for x in j` over a decoded JSON value: a list
yields its elements, a dict its keys, a string its characters; every
other value raises `TypeError`. -/
def pyIter : Json → Except Err (List Json)
  | .arr xs => Except.ok xs
  | .obj kvs => Except.ok (kvs.map (fun kv => Json.str kv.1))
  | .str s => Except.ok (s.data.map (fun c => Json.str (String.mk [c])))
  | _ => Except.error Err.typeError

/-- Python subscript `j[k]` with a string key: dict lookup, raising
`KeyError` when the key is missing and `TypeError` on non-dicts. -/
def pyGetItem : Json → String → Except Err Json
  | .obj kvs, k =>
      match dictGet kvs k with
      | some v => Except.ok v
      | Option.none => Except.error (Err.keyError k)
  | _, _ => Except.error Err.typeError

/-- Python `j.get(k, dflt)`: only dicts have the method (`AttributeError`
otherwise). -/
def pyDictGetDefault : Json → String → Json → Except Err Json
  | .obj kvs, k, dflt => Except.ok ((dictGet kvs k).getD dflt)
  | _, _, _ => Except.error Err.attributeError

/-- A decoded JSON value viewed as the dict `row.update` requires;
non-dict arguments are modelled as `TypeError` (Python raises
`TypeError`/`ValueError` for non-mapping, non-pair-sequence arguments;
the claims only exercise dict entries). -/
def asMapping : Json → Except Err (List (String × Json))
  | .obj kvs => Except.ok kvs
  | _ => Except.error Err.typeError

/-- The inner loop of `_process_bulk_response` (lines 280-283): for each
entry of the `bulk` list build `row = dict(t=timestamp); row.update(entry)`
and append it. -/
def processEntries (timestamp : Json) : List Json → Except Err (List Row)
  | [] => Except.ok []
  | e :: rest =>
      match asMapping e with
      | Except.error err => Except.error err
      | Except.ok ed =>
          match processEntries timestamp rest with
          | Except.error err => Except.error err
          | Except.ok rows => Except.ok (dictUpdate [("t", timestamp)] ed :: rows)

/-- The outer loop of `_process_bulk_response` (lines 276-283): for each
time point read `t` (subscript) and `bulk` (`.get` with default `[]`),
then flatten its entries. -/
def processTimePoints : List Json → Except Err (List Row)
  | [] => Except.ok []
  | tp :: rest =>
      match pyGetItem tp "t" with
      | Except.error err => Except.error err
      | Except.ok timestamp =>
          match pyDictGetDefault tp "bulk" (Json.arr []) with
          | Except.error err => Except.error err
          | Except.ok bulkJson =>
              match pyIter bulkJson with
              | Except.error err => Except.error err
              | Except.ok entries =>
                  match processEntries timestamp entries with
                  | Except.error err => Except.error err
                  | Except.ok rows =>
                      match processTimePoints rest with
                      | Except.error err => Except.error err
                      | Except.ok restRows => Except.ok (rows ++ restRows)

/-- `_process_bulk_response` (lines 270-292) up to the list of flattened
rows.  The trailing pandas steps (`DataFrame(rows)`, `to_datetime`,
`set_index`) keep the rows and their order unchanged and are external to
the repository; the table is modelled by its row list, with `rows = []`
modelling the empty `pd.DataFrame()`. -/
def process_bulk_response (data : Json) : Except Err (List Row) :=
  match data with
  | .obj kvs =>
      match dictGet kvs "data" with
      | some d =>
          match pyIter d with
          | Except.error err => Except.error err
          | Except.ok tps => processTimePoints tps
      | Option.none => Except.error Err.invalidBulkResponse
  | _ => Except.error Err.invalidBulkResponse

/-- `endpoint.lstrip(/)`: drop every leading slash. -/
def lstripSlash (s : String) : String := String.mk (s.data.dropWhile (fun c => c = '/'))

/-- `base_url.rstrip(/)`: drop every trailing slash. -/
def rstripSlash (s : String) : String :=
  String.mk ((s.data.reverse.dropWhile (fun c => c = '/')).reverse)

/-- `self.base_url = base_url.rstrip(/)` (line 54 of `__init__`). -/
def clientBaseUrl (base_url : String) : String := rstripSlash base_url

/-- The f-string of line 117: the stored base joined to the endpoint. -/
def buildUrl (base endpoint : String) : String := base ++ "/" ++ lstripSlash endpoint

/-- The full URL a client constructed with raw `base_url` uses for
`endpoint`: construction-time `rstrip` then request-time join. -/
def fullUrl (base_url endpoint : String) : String :=
  buildUrl (clientBaseUrl base_url) endpoint

/-- One HTTP GET as handed to the transport collaborator: the full URL
and the encoded `(key, value)` parameter pairs. -/
structure Request where
  url : String
  params : List (String × PVal)

/-- What `_make_request` leaves behind: the parsed body or error, the
caller's `params` dict as it stands after the call (`params.update(kwargs)`
mutates it in place at line 104, before any network activity), and the
list of transport invocations. -/
structure ReqOutcome where
  result : Except Err Json
  callerParams : List (String × PVal)
  calls : List Request

/-- `_make_request` (lines 81-126) against an abstract transport.  The
transport stands for `session.get` + `raise_for_status` + `.json()`;
any `requests` exception it signals is wrapped into the single
`ApiRequestFailed` kind (lines 119-126). -/
def make_request (transport : String → List (String × PVal) → Except Unit Json)
    (base endpoint : String) (params kwargs : List (String × PVal)) : ReqOutcome :=
  let merged := dictUpdate params kwargs
  let finalParams := encodeParams merged
  let url := buildUrl base endpoint
  { result :=
      match transport url finalParams with
      | Except.ok body => Except.ok body
      | Except.error _ => Except.error Err.apiRequestFailed
    callerParams := merged
    calls := [{ url := url, params := finalParams }] }

/-- `if assets:` — truthiness of the optional asset list (an empty list
is falsy and is not added to the params). -/
def assetsTruthy : Option (List String) → Bool
  | some (_ :: _) => true
  | _ => false

/-- `self._format_timestamp(x) if x else None` (lines 219-220): a falsy
bound contributes `None`, a truthy one its normalized epoch value. -/
def fmtOpt (iso date : String → Option Int) (o : Option TSInput) : Except Err PVal :=
  match o with
  | some t =>
      if pyTruthyTS t then
        match format_timestamp iso date t with
        | Except.error e => Except.error e
        | Except.ok n => Except.ok (PVal.int n)
      else Except.ok PVal.none
  | Option.none => Except.ok PVal.none

/-- The params dict of `get_bulk_data` before `kwargs` are merged
(lines 218-228): the base literal in its insertion order, with the
asset whitelist assigned afterwards when the asset list is truthy. -/
def bulkBaseParams (sv uv : PVal) (interval : String) (currency : Option String)
    (assets : Option (List String)) : List (String × PVal) :=
  let params0 : List (String × PVal) :=
    [("s", sv), ("u", uv), ("i", PVal.str interval), ("f", PVal.str "json"),
     ("c", match currency with | some c => PVal.str c | Option.none => PVal.none)]
  if assetsTruthy assets then
    dictSet params0 "a" (PVal.list ((assets.getD []).map PVal.str))
  else params0

/-- `get_bulk_data` (lines 176-238): validate the timerange, build the
params, append `/bulk` to the trailing-slash-stripped endpoint, issue
the request through `_make_request`, and normalize the bulk body.  The
second component is the transport call trace ( `[]` = no network call
was issued). -/
def get_bulk_data (iso date : String → Option Int)
    (transport : String → List (String × PVal) → Except Unit Json)
    (base endpoint : String) (assets : Option (List String))
    (since untl : Option TSInput) (interval : String) (currency : Option String)
    (kwargs : List (String × PVal)) : Except Err (List Row) × List Request :=
  match validate_bulk_timerange iso date since untl interval with
  | Except.error e => (Except.error e, [])
  | Except.ok _ =>
      match fmtOpt iso date since with
      | Except.error e => (Except.error e, [])
      | Except.ok sv =>
          match fmtOpt iso date untl with
          | Except.error e => (Except.error e, [])
          | Except.ok uv =>
              let params := dictUpdate (bulkBaseParams sv uv interval currency assets) kwargs
              let bulkEndpoint := rstripSlash endpoint ++ "/bulk"
              let mr := make_request transport base bulkEndpoint params []
              match mr.result with
              | Except.error e => (Except.error e, mr.calls)
              | Except.ok data =>
                  match process_bulk_response data with
                  | Except.error e => (Except.error e, mr.calls)
                  | Except.ok rows => (Except.ok rows, mr.calls)

/-- Encoding of one well-shaped bulk time point
`{t: <epoch>, bulk: [<entry dict>, ...]}`. -/
def encTP (tp : Int × List (List (String × Json))) : Json :=
  Json.obj [("t", Json.num tp.1), ("bulk", Json.arr (tp.2.map Json.obj))]

/-- Encoding of a well-shaped bulk response body
`{data: [<time point>, ...]}`. -/
def encodeBulkBody (tps : List (Int × List (List (String × Json)))) : Json :=
  Json.obj [("data", Json.arr (tps.map encTP))]

/-- Specification-side flattening: one row per (time point, bulk entry)
pair, outer order then inner order, each row the time point's `t`
updated with the entry's fields. -/
def flattenRows : List (Int × List (List (String × Json))) → List Row
  | [] => []
  | tp :: rest =>
      tp.2.map (fun e => dictUpdate [("t", Json.num tp.1)] e) ++ flattenRows rest

lemma processEntries_map_obj (timestamp : Json) (es : List (List (String × Json))) :
    processEntries timestamp (es.map Json.obj)
      = Except.ok (es.map (fun e => dictUpdate [("t", timestamp)] e)) := by
  induction es with
  | nil => rfl
  | cons e rest ih => simp [processEntries, asMapping, ih]

lemma processTimePoints_encTP (tps : List (Int × List (List (String × Json)))) :
    processTimePoints (tps.map encTP) = Except.ok (flattenRows tps) := by
  induction tps with
  | nil => rfl
  | cons tp rest ih =>
      simp [processTimePoints, encTP, pyGetItem, pyDictGetDefault, pyIter, dictGet,
        processEntries_map_obj, ih, flattenRows]

lemma process_bulk_response_encodeBulkBody (tps : List (Int × List (List (String × Json)))) :
    process_bulk_response (encodeBulkBody tps) = Except.ok (flattenRows tps) := by
  simp [process_bulk_response, encodeBulkBody, dictGet, pyIter, processTimePoints_encTP]

lemma pyIter_ne_invalidBulk (j : Json) (e : Err) (h : pyIter j = Except.error e) :
    e ≠ Err.invalidBulkResponse := by
  cases j <;> simp [pyIter] at h <;> simp [h.symm]

lemma pyGetItem_ne_invalidBulk (j : Json) (k : String) (e : Err)
    (h : pyGetItem j k = Except.error e) : e ≠ Err.invalidBulkResponse := by
  cases j <;> simp [pyGetItem] at h
  case obj kvs =>
    cases hg : dictGet kvs k with
    | none => rw [hg] at h; simp at h; simp [h.symm]
    | some v => rw [hg] at h; simp at h
  all_goals simp [h.symm]

lemma pyDictGetDefault_ne_invalidBulk (j : Json) (k : String) (dflt : Json) (e : Err)
    (h : pyDictGetDefault j k dflt = Except.error e) : e ≠ Err.invalidBulkResponse := by
  cases j <;> simp [pyDictGetDefault] at h <;> simp [h.symm]

lemma processEntries_ne_invalidBulk (timestamp : Json) (es : List Json) (e : Err)
    (h : processEntries timestamp es = Except.error e) : e ≠ Err.invalidBulkResponse := by
  induction es with
  | nil => simp [processEntries] at h
  | cons x rest ih =>
      simp only [processEntries] at h
      cases hm : asMapping x with
      | error e1 =>
          simp only [hm] at h
          simp at h
          subst h
          cases x <;> simp [asMapping] at hm <;> simp [hm.symm]
      | ok ed =>
          simp only [hm] at h
          cases hr : processEntries timestamp rest with
          | error e2 =>
              simp only [hr] at h
              simp at h
              rw [h] at hr
              exact ih hr
          | ok rows => simp only [hr] at h; simp at h

lemma processTimePoints_ne_invalidBulk (tps : List Json) (e : Err)
    (h : processTimePoints tps = Except.error e) : e ≠ Err.invalidBulkResponse := by
  induction tps with
  | nil => simp [processTimePoints] at h
  | cons tp rest ih =>
      simp only [processTimePoints] at h
      cases h1 : pyGetItem tp "t" with
      | error e1 =>
          simp only [h1] at h; simp at h
          exact h ▸ pyGetItem_ne_invalidBulk tp "t" e1 h1
      | ok timestamp =>
          simp only [h1] at h
          cases h2 : pyDictGetDefault tp "bulk" (Json.arr []) with
          | error e2 =>
              simp only [h2] at h; simp at h
              exact h ▸ pyDictGetDefault_ne_invalidBulk tp "bulk" (Json.arr []) e2 h2
          | ok bulkJson =>
              simp only [h2] at h
              cases h3 : pyIter bulkJson with
              | error e3 =>
                  simp only [h3] at h; simp at h
                  exact h ▸ pyIter_ne_invalidBulk bulkJson e3 h3
              | ok entries =>
                  simp only [h3] at h
                  cases h4 : processEntries timestamp entries with
                  | error e4 =>
                      simp only [h4] at h; simp at h
                      exact h ▸ processEntries_ne_invalidBulk timestamp entries e4 h4
                  | ok rows =>
                      simp only [h4] at h
                      cases h5 : processTimePoints rest with
                      | error e5 =>
                          simp only [h5] at h; simp at h
                          rw [h] at h5
                          exact ih h5
                      | ok restRows => simp only [h5] at h; simp at h

/-- Whether the body is a dict containing the key `data`. -/
def hasDataKey : Json → Bool
  | .obj kvs => (dictGet kvs "data").isSome
  | _ => false

/-- A string of `n` slashes, for quantifying over "however many
leading/trailing slashes". -/
def slashes (n : Nat) : String := String.mk (List.replicate n '/')

lemma dropWhile_slash_replicate (n : Nat) (l : List Char) :
    (List.replicate n '/' ++ l).dropWhile (fun c => c = '/')
      = l.dropWhile (fun c => c = '/') := by
  induction n with
  | zero => rfl
  | succ m ih => simp [List.replicate_succ, List.dropWhile, ih]

lemma head_of_dropWhile_slash (l : List Char) (c : Char)
    (h : (l.dropWhile (fun c => c = '/')).head? = some c) : c ≠ '/' := by
  have hd := List.head?_dropWhile_not (fun c => c = '/') l
  rw [h] at hd
  simp at hd
  exact hd

lemma lstripSlash_slashes (n : Nat) (e : String) :
    lstripSlash (slashes n ++ e) = lstripSlash e := by
  simp only [lstripSlash, slashes, String.data_append]
  rw [dropWhile_slash_replicate]

lemma rstripSlash_slashes (n : Nat) (b : String) :
    rstripSlash (b ++ slashes n) = rstripSlash b := by
  simp only [rstripSlash, slashes, String.data_append]
  rw [List.reverse_append, List.reverse_replicate, dropWhile_slash_replicate]

lemma replaceZList_append (l1 l2 : List Char) :
    replaceZList (l1 ++ l2) = replaceZList l1 ++ replaceZList l2 := by
  induction l1 with
  | nil => rfl
  | cons c rest ih => simp [replaceZList, ih]

lemma replaceZList_no_z (l : List Char) (h : 'Z' ∉ l) : replaceZList l = l := by
  induction l with
  | nil => rfl
  | cons c rest ih =>
      simp only [List.mem_cons] at h
      push_neg at h
      have hc : c ≠ 'Z' := fun hh => h.1 hh.symm
      simp [replaceZList, hc, ih h.2]

/-- C1: on every bulk body of shape `{data: [{t, bulk: [...]}, ...]}`,
`_process_bulk_response` produces exactly one row per (time point, bulk
entry) pair — the time point's `t` updated with the entry's fields — in
outer time-point order then inner bulk-entry order, and an empty `data`
list yields the empty table rather than an error; the spec's round-trip
example flattens to its two rows in order. -/
theorem bulk_flatten_rows :
    (∀ tps : List (Int × List (List (String × Json))),
      process_bulk_response (encodeBulkBody tps) = Except.ok (flattenRows tps))
    ∧ process_bulk_response (encodeBulkBody []) = Except.ok []
    ∧ process_bulk_response (Json.obj [("data", Json.arr [Json.obj [("t", Json.num 1000),
        ("bulk", Json.arr [Json.obj [("a", Json.str "BTC"), ("v", Json.num 1)],
          Json.obj [("a", Json.str "ETH"), ("v", Json.num 2)]])]])])
        = Except.ok [[("t", Json.num 1000), ("a", Json.str "BTC"), ("v", Json.num 1)],
            [("t", Json.num 1000), ("a", Json.str "ETH"), ("v", Json.num 2)]] :=
  ⟨process_bulk_response_encodeBulkBody, rfl, rfl⟩

/-- C3: the encoding loop of `_make_request` equals the in-order
concatenation of per-item expansions — `None` values emit nothing, a
list value emits one pair per element in list order, any other value
emits exactly one pair — and the spec's example encodes as stated. -/
theorem encode_params_spec :
    (∀ params : List (String × PVal), encodeParams params = expandAll params)
    ∧ (∀ k : String, expandOne k PVal.none = [])
    ∧ (∀ k : String, ∀ xs : List PVal, expandOne k (PVal.list xs) = xs.map (fun x => (k, x)))
    ∧ (∀ k : String, ∀ s : String, expandOne k (PVal.str s) = [(k, PVal.str s)])
    ∧ (∀ k : String, ∀ n : Int, expandOne k (PVal.int n) = [(k, PVal.int n)])
    ∧ encodeParams [("a", PVal.list [PVal.str "BTC", PVal.str "ETH"]), ("s", PVal.int 100)]
        = [("a", PVal.str "BTC"), ("a", PVal.str "ETH"), ("s", PVal.int 100)] :=
  ⟨encodeParams_eq_expandAll, fun _ => rfl, fun _ _ => rfl, fun _ _ => rfl, fun _ _ => rfl, rfl⟩

/-- C5: for every pair of parsing oracles, `_format_timestamp` tries the
ISO-8601 parse of the `Z`-rewritten string first, falls back to the
strict date-only parse, and fails with `InvalidTimestamp` when both
fail; a trailing literal `Z` is rewritten to the UTC offset `+00:00`; a
datetime converts via its epoch-seconds representation; an integer
passes through unchanged; any other type fails with `InvalidTimestamp`. -/
theorem format_timestamp_spec (iso date : String → Option Int) :
    (∀ s : String, ∀ n : Int, iso (replaceZ s) = some n →
      format_timestamp iso date (TSInput.str s) = Except.ok n)
    ∧ (∀ s : String, ∀ n : Int, iso (replaceZ s) = Option.none → date s = some n →
      format_timestamp iso date (TSInput.str s) = Except.ok n)
    ∧ (∀ s : String, iso (replaceZ s) = Option.none → date s = Option.none →
      format_timestamp iso date (TSInput.str s) = Except.error Err.invalidTimestamp)
    ∧ (∀ t : String, 'Z' ∉ t.data → replaceZ (t ++ "Z") = t ++ "+00:00")
    ∧ (∀ n : Int, format_timestamp iso date (TSInput.dt n) = Except.ok n)
    ∧ (∀ n : Int, format_timestamp iso date (TSInput.int n) = Except.ok n)
    ∧ format_timestamp iso date TSInput.other = Except.error Err.invalidTimestamp := by
  refine ⟨?_, ?_, ?_, ?_, fun _ => rfl, fun _ => rfl, rfl⟩
  · intro s n h; simp [format_timestamp, h]
  · intro s n h1 h2; simp [format_timestamp, h1, h2]
  · intro s h1 h2; simp [format_timestamp, h1, h2]
  · intro t h
    have : replaceZList (t.data ++ "Z".data) = t.data ++ "+00:00".data := by
      rw [replaceZList_append, replaceZList_no_z t.data h]
      rfl
    show String.mk (replaceZList (t ++ "Z").data) = t ++ "+00:00"
    rw [String.data_append, this]
    exact (String.data_append t "+00:00").symm ▸ rfl

/-- Witness for the hypotheses of the C5 theorem at concrete oracles
and strings. -/
def isoW : String → Option Int :=
  fun s => if s = "2024-01-01T00:00:00+00:00" then some 1704067200 else Option.none

/-- Date-only oracle used by the C5 witness. -/
def dateW : String → Option Int :=
  fun s => if s = "2024-1-1" then some 1704067200 else Option.none

/-- Witness: the C5 theorem applied at concrete oracles and inputs. -/
theorem format_timestamp_spec_witness :
    format_timestamp isoW dateW (TSInput.str "2024-01-01T00:00:00Z") = Except.ok 1704067200
    ∧ format_timestamp isoW dateW (TSInput.str "2024-1-1") = Except.ok 1704067200
    ∧ format_timestamp isoW dateW (TSInput.str "garbage") = Except.error Err.invalidTimestamp
    ∧ replaceZ ("2024-01-01T00:00:00" ++ "Z") = "2024-01-01T00:00:00" ++ "+00:00"
    ∧ format_timestamp isoW dateW (TSInput.int 1704067200) = Except.ok 1704067200 := by
  have h := format_timestamp_spec isoW dateW
  exact ⟨h.1 "2024-01-01T00:00:00Z" 1704067200 rfl,
    h.2.1 "2024-1-1" 1704067200 rfl rfl,
    h.2.2.1 "garbage" rfl rfl,
    h.2.2.2.1 "2024-01-01T00:00:00" (by decide),
    h.2.2.2.2.2.1 1704067200⟩

/-- C6: `_process_bulk_response` fails with `InvalidBulkResponse`
exactly when the body is not a dict containing a `data` key (malformed
rows inside a present `data` raise other error kinds, never this one);
in particular the empty dict fails with `InvalidBulkResponse`. -/
theorem bulk_invalid_iff :
    (∀ j : Json, process_bulk_response j = Except.error Err.invalidBulkResponse
      ↔ hasDataKey j = false)
    ∧ process_bulk_response (Json.obj []) = Except.error Err.invalidBulkResponse := by
  refine ⟨fun j => ?_, rfl⟩
  cases j with
  | obj kvs =>
      cases hg : dictGet kvs "data" with
      | none => simp [process_bulk_response, hasDataKey, hg]
      | some d =>
          simp only [process_bulk_response, hasDataKey, hg, Option.isSome_some]
          constructor
          · intro h
            exfalso
            cases hi : pyIter d with
            | error e =>
                rw [hi] at h
                simp at h
                exact pyIter_ne_invalidBulk d e hi h
            | ok tps =>
                rw [hi] at h
                exact processTimePoints_ne_invalidBulk tps Err.invalidBulkResponse h rfl
          · intro h; cases h
  | null => simp [process_bulk_response, hasDataKey]
  | bool b => simp [process_bulk_response, hasDataKey]
  | num n => simp [process_bulk_response, hasDataKey]
  | str s => simp [process_bulk_response, hasDataKey]
  | arr xs => simp [process_bulk_response, hasDataKey]

/-- C8: the full URL is the base with all trailing slashes stripped,
one slash, then the endpoint with all leading slashes stripped — so the
join is invariant under any number of extra trailing slashes on the
base or leading slashes on the endpoint, and the two stripped halves
never contribute a slash of their own at the junction. -/
theorem url_join_single_slash (b e : String) :
    fullUrl b e = rstripSlash b ++ "/" ++ lstripSlash e
    ∧ (∀ n : Nat, fullUrl (b ++ slashes n) e = fullUrl b e)
    ∧ (∀ n : Nat, fullUrl b (slashes n ++ e) = fullUrl b e)
    ∧ (∀ c : Char, (rstripSlash b).data.getLast? = some c → c ≠ '/')
    ∧ (∀ c : Char, (lstripSlash e).data.head? = some c → c ≠ '/') := by
  refine ⟨rfl, ?_, ?_, ?_, ?_⟩
  · intro n
    simp only [fullUrl, clientBaseUrl, buildUrl]
    rw [rstripSlash_slashes]
  · intro n
    simp only [fullUrl, clientBaseUrl, buildUrl]
    rw [lstripSlash_slashes]
  · intro c hc
    have : (rstripSlash b).data.getLast?
        = (b.data.reverse.dropWhile (fun c => c = '/')).head? := by
      simp only [rstripSlash]
      exact List.getLast?_reverse _
    rw [this] at hc
    exact head_of_dropWhile_slash _ c hc
  · intro c hc
    exact head_of_dropWhile_slash _ c hc

/-- Witness: the C8 theorem applied at a concrete base URL with two
trailing slashes and endpoint with three leading slashes. -/
theorem url_join_single_slash_witness :
    fullUrl "https://api.example.com//" "///metrics/price"
      = "https://api.example.com" ++ "/" ++ "metrics/price"
    ∧ 'm' ≠ '/' := by
  have h := url_join_single_slash "https://api.example.com//" "///metrics/price"
  exact ⟨by rw [h.1]; rfl, h.2.2.2.2 'm' rfl⟩

lemma format_timestamp_error (iso date : String → Option Int) (t : TSInput) (e : Err)
    (h : format_timestamp iso date t = Except.error e) : e = Err.invalidTimestamp := by
  cases t with
  | str s =>
      simp only [format_timestamp] at h
      cases h1 : iso (replaceZ s) with
      | some n => simp only [h1] at h; simp at h
      | none =>
          simp only [h1] at h
          cases h2 : date s with
          | some n => simp only [h2] at h; simp at h
          | none => simp only [h2] at h; simp at h; exact h.symm
  | dt n => simp [format_timestamp] at h
  | int n => simp [format_timestamp] at h
  | other => simp [format_timestamp] at h; exact h.symm

/-- C2 counterexample: `since = 0` and `until = 3456000` (a 40-day
span) are both provided and exceed the 31-day cap of interval `24h`,
yet the validator is a no-op, because `if not since` treats the falsy
integer `0` as an absent bound. -/
theorem validate_zero_since_counterexample :
    validate_bulk_timerange (fun _ => Option.none) (fun _ => Option.none)
      (some (TSInput.int 0)) (some (TSInput.int 3456000)) "24h" = Except.ok ()
    ∧ ((3456000 : Int) - 0) / 86400 > 31 :=
  ⟨rfl, by decide⟩

/-- C2 amended: the validator fails with `TimerangeTooLarge` iff both
bounds are provided and truthy (a zero integer or empty-string bound is
treated as absent), both normalize successfully, the interval is in the
constraint table, and the span exceeds the cap. -/
theorem validate_fails_iff (iso date : String → Option Int)
    (since untl : Option TSInput) (interval : String) :
    validate_bulk_timerange iso date since untl interval = Except.error Err.timerangeTooLarge
      ↔ ∃ s u : TSInput, ∃ start_ts end_ts max_days : Int,
          since = some s ∧ untl = some u
          ∧ pyTruthyTS s = true ∧ pyTruthyTS u = true
          ∧ format_timestamp iso date s = Except.ok start_ts
          ∧ format_timestamp iso date u = Except.ok end_ts
          ∧ dictGet bulkConstraints interval = some max_days
          ∧ end_ts - start_ts > max_days * 86400 := by
  cases since with
  | none => simp [validate_bulk_timerange]
  | some s =>
      cases untl with
      | none => simp [validate_bulk_timerange]
      | some u =>
          simp only [validate_bulk_timerange, Option.some.injEq]
          by_cases hs : pyTruthyTS s
          · by_cases hu : pyTruthyTS u
            · simp only [hs, hu, Bool.and_self, if_true]
              cases hfs : format_timestamp iso date s with
              | error e1 =>
                  simp only [hfs]
                  constructor
                  · intro h
                    simp at h
                    exact absurd (format_timestamp_error iso date s e1 hfs)
                      (by rw [h]; intro hh; cases hh)
                  · rintro ⟨s', u', a', b', m', rfl, rfl, _, _,
                      h5, h6, h7, h8⟩
                    rw [hfs] at h5
                    cases h5
              | ok a =>
                  simp only [hfs]
                  cases hfu : format_timestamp iso date u with
                  | error e2 =>
                      simp only [hfu]
                      constructor
                      · intro h
                        simp at h
                        exact absurd (format_timestamp_error iso date u e2 hfu)
                          (by rw [h]; intro hh; cases hh)
                      · rintro ⟨s', u', a', b', m', rfl, rfl, _, _,
                          h5, h6, h7, h8⟩
                        rw [hfu] at h6
                        cases h6
                  | ok b =>
                      simp only [hfu]
                      cases hm : dictGet bulkConstraints interval with
                      | none =>
                          simp only [hm]
                          constructor
                          · intro h; cases h
                          · rintro ⟨s', u', a', b', m', rfl, rfl, _, _,
                              h5, h6, h7, h8⟩
                            cases h7
                      | some m =>
                          simp only [hm]
                          by_cases hc : b - a > m * 86400
                          · simp only [hc, if_true]
                            constructor
                            · intro _
                              exact ⟨s, u, a, b, m, rfl, rfl, hs, hu, hfs, hfu, rfl, hc⟩
                            · intro _
                              trivial
                          · simp only [hc, if_false]
                            constructor
                            · intro h; cases h
                            · rintro ⟨s', u', a', b', m', rfl, rfl, _, _,
                                h5, h6, h7, h8⟩
                              rw [hfs] at h5
                              rw [hfu] at h6
                              cases h5; cases h6; cases h7
                              exact absurd h8 hc
            · simp only [hs, hu, Bool.and_false, if_false]
              constructor
              · intro h; cases h
              · rintro ⟨s', u', a', b', m', rfl, rfl, _, h4, _, _, _, _⟩
                exact absurd h4 hu
          · simp only [hs, Bool.false_and, if_false]
            constructor
            · intro h; cases h
            · rintro ⟨s', u', a', b', m', rfl, rfl, h3, _, _, _, _, _⟩
              exact absurd h3 hs

/-- C4 counterexample: a bulk entry whose own fields contain the key
`t` overrides the time point's timestamp in the flattened row — the
row's `t` is the entry's `5`, not the time point's `1000`, so the
timestamp is lost. -/
theorem bulk_t_collision_counterexample :
    process_bulk_response (Json.obj [("data", Json.arr [Json.obj [("t", Json.num 1000),
        ("bulk", Json.arr [Json.obj [("t", Json.num 5), ("v", Json.num 1)]])]])])
      = Except.ok [[("t", Json.num 5), ("v", Json.num 1)]]
    ∧ dictGet [("t", Json.num 5), ("v", Json.num 1)] "t" ≠ some (Json.num 1000) :=
  ⟨rfl, by intro h; simp [dictGet] at h⟩

/-- C4 amended: in the flattened row the entry's fields take precedence
for every key including `t`: when the entry carries its own `t` the row
keeps the entry's value and the time point's timestamp is lost; only
when the entry has no `t` field does the row keep the timestamp. -/
theorem bulk_entry_overrides_t (t : Int) (e : List (String × Json))
    (hn : (e.map Prod.fst).Nodup) :
    process_bulk_response (encodeBulkBody [(t, [e])])
      = Except.ok [dictUpdate [("t", Json.num t)] e]
    ∧ (∀ v : Json, dictGet e "t" = some v →
        dictGet (dictUpdate [("t", Json.num t)] e) "t" = some v)
    ∧ (dictGet e "t" = Option.none →
        dictGet (dictUpdate [("t", Json.num t)] e) "t" = some (Json.num t)) := by
  refine ⟨?_, ?_, ?_⟩
  · rw [process_bulk_response_encodeBulkBody]
    rfl
  · intro v hv
    exact dictGet_dictUpdate_of_get e [("t", Json.num t)] hn "t" v hv
  · intro hv
    have hnk : "t" ∉ e.map Prod.fst := (dictGet_eq_none_iff e "t").mp hv
    rw [dictGet_dictUpdate_not_key e [("t", Json.num t)] "t" hnk]
    rfl

/-- Witness: the C4 amended theorem applied at the colliding entry
`{t: 5, v: 1}` under time point `t = 1000`. -/
theorem bulk_entry_overrides_t_witness :
    process_bulk_response (encodeBulkBody [(1000, [[("t", Json.num 5), ("v", Json.num 1)]])])
      = Except.ok [[("t", Json.num 5), ("v", Json.num 1)]]
    ∧ dictGet (dictUpdate [("t", Json.num 1000)] [("t", Json.num 5), ("v", Json.num 1)]) "t"
      = some (Json.num 5) := by
  have h := bulk_entry_overrides_t 1000 [("t", Json.num 5), ("v", Json.num 1)] (by decide)
  exact ⟨h.1, h.2.1 (Json.num 5) rfl⟩

/-- Stub transport used by the witnesses: answers every GET with an
empty bulk body. -/
def trW : String → List (String × PVal) → Except Unit Json :=
  fun _ _ => Except.ok (Json.obj [("data", Json.arr [])])

/-- C7: whenever the timerange validator rejects, `get_bulk_data`
returns the `TimerangeTooLarge` failure with an empty transport call
trace — the transport collaborator is never invoked, so no request is
consumed against the caller's quota. -/
theorem bulk_rejects_before_network (iso date : String → Option Int)
    (transport : String → List (String × PVal) → Except Unit Json)
    (base endpoint : String) (assets : Option (List String))
    (since untl : Option TSInput) (interval : String) (currency : Option String)
    (kwargs : List (String × PVal))
    (h : validate_bulk_timerange iso date since untl interval
      = Except.error Err.timerangeTooLarge) :
    get_bulk_data iso date transport base endpoint assets since untl interval currency kwargs
      = (Except.error Err.timerangeTooLarge, []) := by
  simp [get_bulk_data, h]

/-- Witness: the spec's end-to-end scenario — a bulk request for
`[BTC, ETH]` spanning 40 days at interval `24h` fails with
`TimerangeTooLarge` and the stub transport records no call. -/
theorem bulk_rejects_before_network_witness :
    get_bulk_data isoW dateW trW "https://api.glassnode.com/v1"
      "metrics/market/price_usd_close" (some ["BTC", "ETH"])
      (some (TSInput.int 86400)) (some (TSInput.int 3542400)) "24h" Option.none []
      = (Except.error Err.timerangeTooLarge, []) :=
  bulk_rejects_before_network isoW dateW trW "https://api.glassnode.com/v1"
    "metrics/market/price_usd_close" (some ["BTC", "ETH"])
    (some (TSInput.int 86400)) (some (TSInput.int 3542400)) "24h" Option.none [] rfl

/-- C9: `params.update(kwargs)` mutates the caller-supplied params dict
in place before any network activity: after the call the caller's dict
is the merged dict — independently of what the transport did — it
contains every keyword argument, and it differs from the original
whenever a keyword argument is new or changes a value. -/
theorem make_request_mutates_params
    (transport : String → List (String × PVal) → Except Unit Json)
    (base endpoint : String) (params kwargs : List (String × PVal)) :
    (make_request transport base endpoint params kwargs).callerParams
      = dictUpdate params kwargs
    ∧ (∀ transport2 : String → List (String × PVal) → Except Unit Json,
        (make_request transport2 base endpoint params kwargs).callerParams
          = (make_request transport base endpoint params kwargs).callerParams)
    ∧ ((kwargs.map Prod.fst).Nodup → ∀ k : String, ∀ v : PVal,
        dictGet kwargs k = some v →
        dictGet (make_request transport base endpoint params kwargs).callerParams k = some v)
    ∧ ((kwargs.map Prod.fst).Nodup → ∀ k : String, ∀ v : PVal,
        dictGet kwargs k = some v → dictGet params k ≠ some v →
        (make_request transport base endpoint params kwargs).callerParams ≠ params) := by
  refine ⟨rfl, fun _ => rfl, ?_, ?_⟩
  · intro hnd k v hk
    exact dictGet_dictUpdate_of_get kwargs params hnd k v hk
  · intro hnd k v hk hne hcontra
    apply hne
    rw [← hcontra]
    exact dictGet_dictUpdate_of_get kwargs params hnd k v hk

/-- Witness: the C9 theorem applied at a one-entry params dict and a
one-entry kwargs dict. -/
theorem make_request_mutates_params_witness :
    (make_request trW "b" "e" [("a", PVal.int 1)] [("x", PVal.int 2)]).callerParams
      = [("a", PVal.int 1), ("x", PVal.int 2)]
    ∧ dictGet (make_request trW "b" "e" [("a", PVal.int 1)] [("x", PVal.int 2)]).callerParams "x"
      = some (PVal.int 2)
    ∧ (make_request trW "b" "e" [("a", PVal.int 1)] [("x", PVal.int 2)]).callerParams
      ≠ [("a", PVal.int 1)] := by
  have h := make_request_mutates_params trW "b" "e" [("a", PVal.int 1)] [("x", PVal.int 2)]
  refine ⟨by rw [h.1]; rfl, ?_, ?_⟩
  · exact h.2.2.1 (by decide) "x" (PVal.int 2) rfl
  · exact h.2.2.2 (by decide) "x" (PVal.int 2) rfl (by simp [dictGet])

lemma dictUpdate_nil {α : Type} (d : List (String × α)) : dictUpdate d [] = d := rfl

lemma get_bulk_data_trace (iso date : String → Option Int)
    (transport : String → List (String × PVal) → Except Unit Json)
    (base endpoint : String) (assets : Option (List String))
    (since untl : Option TSInput) (interval : String) (currency : Option String)
    (kwargs : List (String × PVal)) :
    (get_bulk_data iso date transport base endpoint assets since untl interval
        currency kwargs).2 = []
    ∨ ∃ sv uv : PVal,
        (get_bulk_data iso date transport base endpoint assets since untl interval
            currency kwargs).2
          = [{ url := buildUrl base (rstripSlash endpoint ++ "/bulk"),
               params := encodeParams
                 (dictUpdate (bulkBaseParams sv uv interval currency assets) kwargs) }] := by
  cases hv : validate_bulk_timerange iso date since untl interval with
  | error e => left; simp [get_bulk_data, hv]
  | ok u =>
      cases hs : fmtOpt iso date since with
      | error e => left; simp [get_bulk_data, hv, hs]
      | ok sv =>
          cases hu : fmtOpt iso date untl with
          | error e => left; simp [get_bulk_data, hv, hs, hu]
          | ok uv =>
              right
              refine ⟨sv, uv, ?_⟩
              simp only [get_bulk_data, hv, hs, hu]
              cases hr : (make_request transport base (rstripSlash endpoint ++ "/bulk")
                  (dictUpdate (bulkBaseParams sv uv interval currency assets) kwargs) []).result with
              | error e => simp [hr, make_request, dictUpdate_nil]
              | ok data =>
                  cases hp : process_bulk_response data with
                  | error e => simp [hr, hp, make_request, dictUpdate_nil]
                  | ok rows => simp [hr, hp, make_request, dictUpdate_nil]

/-- C10: every request `get_bulk_data` hands to the transport targets
the endpoint with all trailing slashes stripped and `/bulk` appended,
and when the caller's keyword arguments do not contain the key `f`, the
encoded parameters include the pair `(f, json)` — bulk requests default
to JSON format unless an explicit `f` keyword overrides it. -/
theorem bulk_request_shape (iso date : String → Option Int)
    (transport : String → List (String × PVal) → Except Unit Json)
    (base endpoint : String) (assets : Option (List String))
    (since untl : Option TSInput) (interval : String) (currency : Option String)
    (kwargs : List (String × PVal)) (r : Request)
    (hr : r ∈ (get_bulk_data iso date transport base endpoint assets since untl
        interval currency kwargs).2) :
    r.url = buildUrl base (rstripSlash endpoint ++ "/bulk")
    ∧ (dictGet kwargs "f" = Option.none → ("f", PVal.str "json") ∈ r.params) := by
  rcases get_bulk_data_trace iso date transport base endpoint assets since untl
      interval currency kwargs with h | ⟨sv, uv, h⟩
  · rw [h] at hr
    simp at hr
  · rw [h] at hr
    simp at hr
    subst hr
    refine ⟨rfl, ?_⟩
    intro hf
    have hmem : ("f", PVal.str "json") ∈ bulkBaseParams sv uv interval currency assets := by
      unfold bulkBaseParams
      by_cases ha : assetsTruthy assets
      · simp only [ha, if_true]
        apply mem_dictSet_of_ne
        · simp
        · decide
      · simp only [ha, if_false]
        simp
    have hnotin : "f" ∉ kwargs.map Prod.fst := (dictGet_eq_none_iff kwargs "f").mp hf
    have hmem2 : ("f", PVal.str "json")
        ∈ dictUpdate (bulkBaseParams sv uv interval currency assets) kwargs :=
      mem_dictUpdate_of_key_not_mem kwargs _ "f" (PVal.str "json") hmem hnotin
    exact mem_encodeParams_of_mem_scalar _ "f" (PVal.str "json") hmem2 rfl

/-- Witness: the C10 theorem applied to the single request a concrete
`get_bulk_data` call issues. -/
theorem bulk_request_shape_witness :
    ({ url := "b/e/bulk", params := [("i", PVal.str "24h"), ("f", PVal.str "json")] }
      : Request).url = buildUrl "b" (rstripSlash "e" ++ "/bulk")
    ∧ ("f", PVal.str "json")
      ∈ ({ url := "b/e/bulk", params := [("i", PVal.str "24h"), ("f", PVal.str "json")] }
        : Request).params := by
  have h := bulk_request_shape isoW dateW trW "b" "e" Option.none Option.none Option.none
    "24h" Option.none []
    { url := "b/e/bulk", params := [("i", PVal.str "24h"), ("f", PVal.str "json")] }
    (by exact List.mem_singleton.mpr rfl)
  exact ⟨h.1, h.2 rfl⟩
